import Mathlib

/-!
The per-packet service function of calc1to1.

A shallow embedding of `src/cpp/calc1to1.cpp` (the constructor `calc1to1_i::calc1to1_i` and
`calc1to1_i::serviceFunction`), followed by theorems about domain selection, SRI propagation,
the accumulator reset and the packet frame.

Scalars (`double` in the source) are an arbitrary type `α` with a zero and decidable equality:
the service function only ever compares `operand.imag()` with `0` and otherwise moves samples
around.  The property type of `operation`, the time stamp type and the SRI fields other than
`mode` are declared in headers that are not part of the source tree and are type parameters.
-/

namespace Calc1to1

/-- The value type `std::complex<double>`, with the accessors `real()` and `imag()`. -/
structure Cplx (α : Type) where
  real : α
  imag : α
deriving DecidableEq, Repr

/-- The part of `BULKIO::StreamSRI` the service function touches: the `mode` flag
(true = complex samples).  Every other field travels in `rest`. -/
structure StreamSRI (σ : Type) where
  mode : Bool
  rest : σ
deriving DecidableEq, Repr

/-- The record `bulkio::InDoublePort::dataTransfer` returned by `getPacket`. -/
structure DataTransfer (α τ σ : Type) where
  dataBuffer : List α
  T : τ
  EOS : Bool
  streamID : String
  SRI : StreamSRI σ
  sriChanged : Bool
deriving DecidableEq, Repr

/-- The member variables of `calc1to1_i` read or written by the code: the properties
`operation` and `operand`, and the members `last_operation` and `data`. -/
structure Component (Op α : Type) where
  operation : Op
  operand : Cplx α
  last_operation : Op
  data : List α
deriving DecidableEq, Repr

/-- Return value of `serviceFunction`. -/
inductive ReturnCode where
  | NOOP
  | NORMAL
deriving DecidableEq, Repr

/-- The calls `serviceFunction` makes, in program order: `data.clear()` (line 164), the three
overloads of `doCalculation` with the arguments they receive (lines 171, 178, 183; the last
argument is the content of `data` on entry), `pushSRI` (line 188), `pushPacket` (line 190) and
`delete tmp` (line 192, carrying the packet as it is when it is released). -/
inductive Event (α τ σ : Type) where
  | clearData
  | calcComplexComplex (input : List (Cplx α)) (operand : Cplx α) (data : List α)
  | calcRealComplex (input : List α) (operand : Cplx α) (data : List α)
  | calcRealReal (input : List α) (operand : α) (data : List α)
  | pushSRI (sri : StreamSRI σ)
  | pushPacket (data : List α) (T : τ) (EOS : Bool) (streamID : String)
  | release (tmp : DataTransfer α τ σ)
deriving DecidableEq, Repr

/-- Modelled from the spec: `doCalculation`, which is declared in `calc1to1.h` and is not part
of the source tree.  Following §4.2 (`apply(domain, input_samples, operand, state)`), each of
the three overloads called by `serviceFunction` is a function of the configured operation, the
input view, the operand and the accumulator `data`, and its only effect is the new content of
`data`. -/
structure Calculator (Op α : Type) where
  complexComplex : Op → List (Cplx α) → Cplx α → List α → List α
  realComplex : Op → List α → Cplx α → List α → List α
  realReal : Op → List α → α → List α → List α

/-- The cast `(vector<complex<double> >*) &(tmp->dataBuffer)` of line 170: the buffer read as
interleaved (real, imaginary) pairs.  This is exact for an even scalar count.  For an odd
scalar count the cast has no defined element list; this definition then takes the complete
pairs only, and `castView` leaves that case open instead. -/
def asComplex {α : Type} : List α → List (Cplx α)
  | re :: im :: rest => ⟨re, im⟩ :: asComplex rest
  | _ => []

/-- What one call of `serviceFunction` yields: the member variables afterwards, the return
code and the calls made. -/
structure Outcome (Op α τ σ : Type) where
  state : Component Op α
  ret : ReturnCode
  trace : List (Event α τ σ)

/-- The constructor `calc1to1_i::calc1to1_i` (lines 14-18): after the base class has set the
properties, `last_operation = operation`; `data` starts empty. -/
def calc1to1_i {Op α : Type} (operation : Op) (operand : Cplx α) : Component Op α :=
  { operation := operation, operand := operand, last_operation := operation, data := [] }

/-- Lines 163-164, `if (last_operation != operation) data.clear();`: the content of `data`
after the statement. -/
def dataAfterClear {Op α : Type} [DecidableEq Op] (c : Component Op α) : List α :=
  if c.last_operation ≠ c.operation then [] else c.data

/-- Lines 163-164, `if (last_operation != operation) data.clear();`: the call made, if any. -/
def clearCall {Op α τ σ : Type} [DecidableEq Op] (c : Component Op α) : List (Event α τ σ) :=
  if c.last_operation ≠ c.operation then [Event.clearData] else []

/-- Lines 168-185: the three-way branch.  Returns the packet with the flags as the branch
leaves them, the content of `data` after `doCalculation`, and the call made. -/
def dispatch {Op α τ σ : Type} [Zero α] [DecidableEq α] (doCalc : Calculator Op α)
    (c : Component Op α) (data : List α) (tmp : DataTransfer α τ σ) :
    DataTransfer α τ σ × List α × Event α τ σ :=
  if tmp.SRI.mode = true then
    -- input is complex, operand can be real/complex
    let input := asComplex tmp.dataBuffer
    (tmp, doCalc.complexComplex c.operation input c.operand data,
      Event.calcComplexComplex input c.operand data)
  else if c.operand.imag ≠ 0 then
    -- input is real, operand is complex
    let tmp1 := { tmp with sriChanged := true }
    let tmp2 := { tmp1 with SRI := { tmp1.SRI with mode := true } }
    (tmp2, doCalc.realComplex c.operation tmp2.dataBuffer c.operand data,
      Event.calcRealComplex tmp2.dataBuffer c.operand data)
  else
    -- both are real
    (tmp, doCalc.realReal c.operation tmp.dataBuffer c.operand.real data,
      Event.calcRealReal tmp.dataBuffer c.operand.real data)

/-- Lines 187-189: `if (tmp->sriChanged) output_double->pushSRI(tmp->SRI);`. -/
def announce {α τ σ : Type} (tmp : DataTransfer α τ σ) : List (Event α τ σ) :=
  if tmp.sriChanged = true then [Event.pushSRI tmp.SRI] else []

/-- The method `calc1to1_i::serviceFunction` (lines 155-194).  The argument `packet` is the
result of `input_double->getPacket(bulkio::Const::BLOCKING)`, `none` being the null pointer.
The `LOG_DEBUG` statement of line 156 has no effect on the component and is left out. -/
def serviceFunction {Op α τ σ : Type} [DecidableEq Op] [Zero α] [DecidableEq α]
    (doCalc : Calculator Op α) (c : Component Op α) (packet : Option (DataTransfer α τ σ)) :
    Outcome Op α τ σ :=
  match packet with
  | none => { state := c, ret := ReturnCode.NOOP, trace := [] }
  | some tmp =>
    let branch := dispatch doCalc c (dataAfterClear c) tmp
    let tmp1 := branch.1
    let output := branch.2.1
    { state := { c with data := output },
      ret := ReturnCode.NORMAL,
      trace := clearCall c ++ [branch.2.2] ++ announce tmp1 ++
        [Event.pushPacket output tmp1.T tmp1.EOS tmp1.streamID, Event.release tmp1] }

/-- One scheduling of the service thread: the properties `operation` and `operand` as the
framework holds them at that moment, and what `getPacket` returns. -/
structure Tick (Op α τ σ : Type) where
  operation : Op
  operand : Cplx α
  packet : Option (DataTransfer α τ σ)

/-- The property values of a tick written into the member variables (the framework does this
between calls; the service function itself never assigns them). -/
def configure {Op α τ σ : Type} (c : Component Op α) (t : Tick Op α τ σ) : Component Op α :=
  { c with operation := t.operation, operand := t.operand }

/-- One iteration: the properties of the tick are in place, then `serviceFunction` runs. -/
def iteration {Op α τ σ : Type} [DecidableEq Op] [Zero α] [DecidableEq α]
    (doCalc : Calculator Op α) (c : Component Op α) (t : Tick Op α τ σ) : Outcome Op α τ σ :=
  serviceFunction doCalc (configure c t) t.packet

/-- A run of iterations: the final member variables and the concatenated calls. -/
def run {Op α τ σ : Type} [DecidableEq Op] [Zero α] [DecidableEq α]
    (doCalc : Calculator Op α) (c : Component Op α) :
    List (Tick Op α τ σ) → Component Op α × List (Event α τ σ)
  | [] => (c, [])
  | t :: ts =>
    let o := iteration doCalc c t
    let r := run doCalc o.state ts
    (r.1, o.trace ++ r.2)

/-! ### The service function with the cast of an odd buffer left open -/

/-- The cast of line 170 without a choice for malformed buffers: the interleaved pairs
`asComplex` when the scalar count is even, and `oddView buf`, an arbitrary element list, when
it is odd (the source defines none for that case). -/
def castView {α : Type} (oddView : List α → List (Cplx α)) (buf : List α) : List (Cplx α) :=
  if buf.length % 2 = 0 then asComplex buf else oddView buf

/-- Lines 168-185 as in `dispatch`, with the result of the cast of line 170 given by `view`. -/
def dispatchVia {Op α τ σ : Type} [Zero α] [DecidableEq α] (view : List α → List (Cplx α))
    (doCalc : Calculator Op α) (c : Component Op α) (data : List α) (tmp : DataTransfer α τ σ) :
    DataTransfer α τ σ × List α × Event α τ σ :=
  if tmp.SRI.mode = true then
    -- input is complex, operand can be real/complex
    let input := view tmp.dataBuffer
    (tmp, doCalc.complexComplex c.operation input c.operand data,
      Event.calcComplexComplex input c.operand data)
  else if c.operand.imag ≠ 0 then
    -- input is real, operand is complex
    let tmp1 := { tmp with sriChanged := true }
    let tmp2 := { tmp1 with SRI := { tmp1.SRI with mode := true } }
    (tmp2, doCalc.realComplex c.operation tmp2.dataBuffer c.operand data,
      Event.calcRealComplex tmp2.dataBuffer c.operand data)
  else
    -- both are real
    (tmp, doCalc.realReal c.operation tmp.dataBuffer c.operand.real data,
      Event.calcRealReal tmp.dataBuffer c.operand.real data)

/-- The method `calc1to1_i::serviceFunction` (lines 155-194) as in `serviceFunction`, with the
result of the cast of line 170 given by `view`; `serviceFunction` is the case
`view = asComplex`. -/
def serviceFunctionVia {Op α τ σ : Type} [DecidableEq Op] [Zero α] [DecidableEq α]
    (view : List α → List (Cplx α)) (doCalc : Calculator Op α) (c : Component Op α)
    (packet : Option (DataTransfer α τ σ)) : Outcome Op α τ σ :=
  match packet with
  | none => { state := c, ret := ReturnCode.NOOP, trace := [] }
  | some tmp =>
    let branch := dispatchVia view doCalc c (dataAfterClear c) tmp
    let tmp1 := branch.1
    let output := branch.2.1
    { state := { c with data := output },
      ret := ReturnCode.NORMAL,
      trace := clearCall c ++ [branch.2.2] ++ announce tmp1 ++
        [Event.pushPacket output tmp1.T tmp1.EOS tmp1.streamID, Event.release tmp1] }

/-! ### Reading a trace -/

/-- The event is one of the three `doCalculation` calls. -/
def Event.isCalc {α τ σ : Type} : Event α τ σ → Bool
  | Event.calcComplexComplex _ _ _ => true
  | Event.calcRealComplex _ _ _ => true
  | Event.calcRealReal _ _ _ => true
  | _ => false

/-- The event is a call on the output port `output_double` (`pushSRI` or `pushPacket`). -/
def Event.isPort {α τ σ : Type} : Event α τ σ → Bool
  | Event.pushSRI _ => true
  | Event.pushPacket _ _ _ _ => true
  | _ => false

/-- The event is a `pushPacket`. -/
def Event.isPushPacket {α τ σ : Type} : Event α τ σ → Bool
  | Event.pushPacket _ _ _ _ => true
  | _ => false

/-- The event is a `delete tmp`. -/
def Event.isRelease {α τ σ : Type} : Event α τ σ → Bool
  | Event.release _ => true
  | _ => false

/-- In `trace`, every `pushPacket` carrying the stream id `s` comes after some `pushSRI`
(equivalently: the first such `pushPacket` does). -/
def AnnouncedBeforePush {α τ σ : Type} (s : String) (trace : List (Event α τ σ)) : Prop :=
  ∀ pre d T e post, trace = pre ++ Event.pushPacket d T e s :: post →
    ∃ sri, Event.pushSRI sri ∈ pre

/-- The tick dequeues a packet carrying the stream id `s`. -/
def Tick.carries {Op α τ σ : Type} (s : String) (t : Tick Op α τ σ) : Bool :=
  match t.packet with
  | some p => p.streamID == s
  | none => false

/-- The tick dequeues a packet that arrives with `sriChanged` set, or a real-mode packet while
the operand has a non-zero imaginary part. -/
def Tick.flagged {Op α τ σ : Type} [Zero α] [DecidableEq α] (t : Tick Op α τ σ) : Bool :=
  match t.packet with
  | some p => p.sriChanged || (!p.SRI.mode && decide (t.operand.imag ≠ 0))
  | none => false

/-! ### The calculator of the specification -/

/-- Complex samples written back as interleaved (real, imaginary) scalars, the layout in which
`data` (a `vector<double>`) is handed to `pushPacket`. -/
def interleave {α : Type} : List (Cplx α) → List α
  | [] => []
  | z :: zs => z.real :: z.imag :: interleave zs

/-- Modelled from the spec: the length contract of `doCalculation` (declared in `calc1to1.h`,
not part of the source tree), §4.2 "Output: a new sequence of the same element count as the
logical input (same number of real scalars for real domain; same number of complex scalars,
i.e. same count of real/imaginary pairs, for complex domain)".  A complex result of `n` samples
occupies `2 * n` scalars of `data`. -/
def Calculator.PreservesCount {Op α : Type} (doCalc : Calculator Op α) : Prop :=
  (∀ op input operand data,
      (doCalc.complexComplex op input operand data).length = 2 * input.length) ∧
  (∀ op input operand data,
      (doCalc.realComplex op input operand data).length = 2 * input.length) ∧
  (∀ op input operand data,
      (doCalc.realReal op input operand data).length = input.length)

/-- Modelled from the spec: the bodies of `doCalculation` (declared in `calc1to1.h`, not part
of the source tree), §2 "applying the configured binary operation to each element
(broadcasting the operand if it is scalar)".  The binary operations themselves are
parameters (§1: the operation "is itself externally configurable and not fixed by this
core"); a real sample meeting a complex operand is promoted with imaginary part `0`
(Scenario B). -/
def specCalculator {Op α : Type} [Zero α] (realOp : Op → α → α → α)
    (cplxOp : Op → Cplx α → Cplx α → Cplx α) : Calculator Op α :=
  { complexComplex := fun op input operand _ =>
      interleave (input.map (fun z => cplxOp op z operand))
    realComplex := fun op input operand _ =>
      interleave (input.map (fun x => cplxOp op ⟨x, 0⟩ operand))
    realReal := fun op input operand _ =>
      input.map (fun x => realOp op x operand) }

/-! ### Concrete data for the evaluations -/

/-- Example operations on integers: `"+"` adds, anything else multiplies. -/
def exRealOp (op : String) (x y : Int) : Int :=
  if op = "+" then x + y else x * y

/-- Example operations on complex integers: `"+"` adds, anything else multiplies. -/
def exCplxOp (op : String) (x y : Cplx Int) : Cplx Int :=
  if op = "+" then ⟨x.real + y.real, x.imag + y.imag⟩
  else ⟨x.real * y.real - x.imag * y.imag, x.real * y.imag + x.imag * y.real⟩

/-- The calculator of the specification over the example operations. -/
def exCalc : Calculator String Int := specCalculator exRealOp exCplxOp

/-- A packet with integer samples, natural-number time stamps and no further SRI fields. -/
def exPacket (buf : List Int) (mode sriChanged : Bool) (T : Nat) (EOS : Bool) (sid : String) :
    DataTransfer Int Nat Unit :=
  { dataBuffer := buf, T := T, EOS := EOS, streamID := sid,
    SRI := { mode := mode, rest := () }, sriChanged := sriChanged }

/-! ### Auxiliary facts -/

theorem asComplex_length {α : Type} (l : List α) : (asComplex l).length = l.length / 2 := by
  induction l using asComplex.induct with
  | case1 re im rest ih =>
    simp only [asComplex, List.length_cons, ih]
    omega
  | case2 l h =>
    match l with
    | [] => simp [asComplex]
    | [_] => simp [asComplex]
    | re :: im :: rest => exact absurd rfl (h re im rest)

theorem interleave_length {α : Type} (zs : List (Cplx α)) :
    (interleave zs).length = 2 * zs.length := by
  induction zs with
  | nil => rfl
  | cons z zs ih => simp only [interleave, List.length_cons, ih]; omega

theorem specCalculator_preservesCount {Op α : Type} [Zero α] (realOp : Op → α → α → α)
    (cplxOp : Op → Cplx α → Cplx α → Cplx α) :
    (specCalculator realOp cplxOp).PreservesCount := by
  refine ⟨?_, ?_, ?_⟩ <;> intro op input operand data <;>
    simp [specCalculator, interleave_length]

theorem announce_filter_isPort {α τ σ : Type} (tmp : DataTransfer α τ σ) :
    (announce tmp).filter Event.isPort = announce tmp := by
  unfold announce
  split <;> simp [Event.isPort]

theorem clearCall_filter_isPort {Op α τ σ : Type} [DecidableEq Op] (c : Component Op α) :
    (clearCall c : List (Event α τ σ)).filter Event.isPort = [] := by
  unfold clearCall
  split <;> simp [Event.isPort]

theorem clearCall_filter_isCalc {Op α τ σ : Type} [DecidableEq Op] (c : Component Op α) :
    (clearCall c : List (Event α τ σ)).filter Event.isCalc = [] := by
  unfold clearCall
  split <;> simp [Event.isCalc]

theorem announce_filter_isCalc {α τ σ : Type} (tmp : DataTransfer α τ σ) :
    (announce tmp).filter Event.isCalc = [] := by
  unfold announce
  split <;> simp [Event.isCalc]

theorem dispatch_isCalc {Op α τ σ : Type} [Zero α] [DecidableEq α] (doCalc : Calculator Op α)
    (c : Component Op α) (data : List α) (tmp : DataTransfer α τ σ) :
    (dispatch doCalc c data tmp).2.2.isCalc = true := by
  unfold dispatch
  split
  · rfl
  · split <;> rfl

theorem dispatch_not_isPort {Op α τ σ : Type} [Zero α] [DecidableEq α]
    (doCalc : Calculator Op α) (c : Component Op α) (data : List α) (tmp : DataTransfer α τ σ) :
    (dispatch doCalc c data tmp).2.2.isPort = false := by
  unfold dispatch
  split
  · rfl
  · split <;> rfl

/-- The trace of an iteration that dequeued a packet, written out. -/
theorem serviceFunction_some_trace {Op α τ σ : Type} [DecidableEq Op] [Zero α] [DecidableEq α]
    (doCalc : Calculator Op α) (c : Component Op α) (p : DataTransfer α τ σ) :
    (serviceFunction doCalc c (some p)).trace =
      clearCall c ++ [(dispatch doCalc c (dataAfterClear c) p).2.2] ++
        announce (dispatch doCalc c (dataAfterClear c) p).1 ++
        [Event.pushPacket (dispatch doCalc c (dataAfterClear c) p).2.1
            (dispatch doCalc c (dataAfterClear c) p).1.T
            (dispatch doCalc c (dataAfterClear c) p).1.EOS
            (dispatch doCalc c (dataAfterClear c) p).1.streamID,
          Event.release (dispatch doCalc c (dataAfterClear c) p).1] := rfl

/-- The port calls of an iteration that dequeued a packet. -/
theorem serviceFunction_some_ports {Op α τ σ : Type} [DecidableEq Op] [Zero α] [DecidableEq α]
    (doCalc : Calculator Op α) (c : Component Op α) (p : DataTransfer α τ σ) :
    (serviceFunction doCalc c (some p)).trace.filter Event.isPort =
      announce (dispatch doCalc c (dataAfterClear c) p).1 ++
        [Event.pushPacket (serviceFunction doCalc c (some p)).state.data
            (dispatch doCalc c (dataAfterClear c) p).1.T
            (dispatch doCalc c (dataAfterClear c) p).1.EOS
            (dispatch doCalc c (dataAfterClear c) p).1.streamID] := by
  rw [serviceFunction_some_trace]
  simp only [List.filter_append, clearCall_filter_isPort, announce_filter_isPort,
    List.filter_cons, List.filter_nil, dispatch_not_isPort]
  simp [serviceFunction, Event.isPort]

/-- The packet as the promotion branch leaves it. -/
theorem dispatch_promote {Op α τ σ : Type} [Zero α] [DecidableEq α] (doCalc : Calculator Op α)
    (c : Component Op α) (data : List α) (p : DataTransfer α τ σ)
    (hmode : p.SRI.mode = false) (himag : c.operand.imag ≠ 0) :
    dispatch doCalc c data p =
      ({ p with sriChanged := true, SRI := { p.SRI with mode := true } },
        doCalc.realComplex c.operation p.dataBuffer c.operand data,
        Event.calcRealComplex p.dataBuffer c.operand data) := by
  simp [dispatch, hmode, himag]

/-- The real/real branch leaves the packet alone. -/
theorem dispatch_real {Op α τ σ : Type} [Zero α] [DecidableEq α] (doCalc : Calculator Op α)
    (c : Component Op α) (data : List α) (p : DataTransfer α τ σ)
    (hmode : p.SRI.mode = false) (himag : c.operand.imag = 0) :
    dispatch doCalc c data p =
      (p, doCalc.realReal c.operation p.dataBuffer c.operand.real data,
        Event.calcRealReal p.dataBuffer c.operand.real data) := by
  simp [dispatch, hmode, himag]

/-- The complex/complex branch leaves the packet alone. -/
theorem dispatch_complex {Op α τ σ : Type} [Zero α] [DecidableEq α] (doCalc : Calculator Op α)
    (c : Component Op α) (data : List α) (p : DataTransfer α τ σ)
    (hmode : p.SRI.mode = true) :
    dispatch doCalc c data p =
      (p, doCalc.complexComplex c.operation (asComplex p.dataBuffer) c.operand data,
        Event.calcComplexComplex (asComplex p.dataBuffer) c.operand data) := by
  simp [dispatch, hmode]

/-- No branch touches the time stamp, the end-of-stream flag, the stream id or the buffer. -/
theorem dispatch_frame {Op α τ σ : Type} [Zero α] [DecidableEq α] (doCalc : Calculator Op α)
    (c : Component Op α) (data : List α) (p : DataTransfer α τ σ) :
    (dispatch doCalc c data p).1.T = p.T ∧ (dispatch doCalc c data p).1.EOS = p.EOS ∧
      (dispatch doCalc c data p).1.streamID = p.streamID ∧
      (dispatch doCalc c data p).1.dataBuffer = p.dataBuffer := by
  unfold dispatch
  split
  · simp
  · split <;> simp

/-- The `doCalculation` calls of an iteration that dequeued a packet. -/
theorem serviceFunction_some_calls {Op α τ σ : Type} [DecidableEq Op] [Zero α] [DecidableEq α]
    (doCalc : Calculator Op α) (c : Component Op α) (p : DataTransfer α τ σ) :
    (serviceFunction doCalc c (some p)).trace.filter Event.isCalc =
      [(dispatch doCalc c (dataAfterClear c) p).2.2] := by
  rw [serviceFunction_some_trace]
  simp only [List.filter_append, clearCall_filter_isCalc, announce_filter_isCalc,
    List.filter_cons, List.filter_nil, dispatch_isCalc]
  simp [Event.isCalc]

/-- The `pushPacket` calls of an iteration that dequeued a packet. -/
theorem serviceFunction_some_pushPackets {Op α τ σ : Type} [DecidableEq Op] [Zero α]
    [DecidableEq α] (doCalc : Calculator Op α) (c : Component Op α) (p : DataTransfer α τ σ) :
    (serviceFunction doCalc c (some p)).trace.filter Event.isPushPacket =
      [Event.pushPacket (serviceFunction doCalc c (some p)).state.data p.T p.EOS
        p.streamID] := by
  obtain ⟨hT, hE, hS, _⟩ := dispatch_frame doCalc c (dataAfterClear c) p
  rw [serviceFunction_some_trace, hT, hE, hS]
  have hd : (dispatch doCalc c (dataAfterClear c) p).2.2.isPushPacket = false := by
    unfold dispatch
    split
    · rfl
    · split <;> rfl
  have ha : (announce (dispatch doCalc c (dataAfterClear c) p).1).filter
      Event.isPushPacket = [] := by
    unfold announce
    split <;> simp [Event.isPushPacket]
  have hc : (clearCall c : List (Event α τ σ)).filter Event.isPushPacket = [] := by
    unfold clearCall
    split <;> simp [Event.isPushPacket]
  simp only [List.filter_append, hc, ha, List.filter_cons, List.filter_nil, hd]
  simp [Event.isPushPacket, serviceFunction]

/-! ### Domain selection and SRI propagation for one packet -/

/-- C1: for every dequeued packet and every operand, `serviceFunction` makes exactly one
`doCalculation` call, chosen in this order of precedence: the complex view of the buffer with
the full operand when `SRI.mode` is true (whatever the operand is); otherwise the real buffer
with the full operand when `operand.imag() != 0`; otherwise the real buffer with
`operand.real()`. -/
theorem serviceFunction_domain_precedence {Op α τ σ : Type} [DecidableEq Op] [Zero α]
    [DecidableEq α] (doCalc : Calculator Op α) (c : Component Op α) (p : DataTransfer α τ σ) :
    (serviceFunction doCalc c (some p)).trace.filter Event.isCalc =
      [if p.SRI.mode = true then
          Event.calcComplexComplex (asComplex p.dataBuffer) c.operand (dataAfterClear c)
        else if c.operand.imag ≠ 0 then
          Event.calcRealComplex p.dataBuffer c.operand (dataAfterClear c)
        else
          Event.calcRealReal p.dataBuffer c.operand.real (dataAfterClear c)] := by
  rw [serviceFunction_some_calls]
  by_cases hmode : p.SRI.mode = true
  · rw [dispatch_complex doCalc c _ p hmode, if_pos hmode]
  · have hfalse : p.SRI.mode = false := by simpa using hmode
    by_cases himag : c.operand.imag = 0
    · rw [dispatch_real doCalc c _ p hfalse himag, if_neg hmode, if_neg (not_not.mpr himag)]
    · rw [dispatch_promote doCalc c _ p hfalse himag, if_neg hmode, if_pos himag]

/-- C2 (mode promotion): for a packet with `SRI.mode == false` and an operand with
`operand.imag() != 0`, the packet is released with `sriChanged` and `SRI.mode` both true, and
the calls on the output port are exactly a `pushSRI` carrying `mode == true` followed by the
`pushPacket`, whatever `sriChanged` was on arrival. -/
theorem serviceFunction_promotes {Op α τ σ : Type} [DecidableEq Op] [Zero α] [DecidableEq α]
    (doCalc : Calculator Op α) (c : Component Op α) (p : DataTransfer α τ σ)
    (hmode : p.SRI.mode = false) (himag : c.operand.imag ≠ 0) :
    (serviceFunction doCalc c (some p)).trace.filter Event.isRelease =
        [Event.release { p with sriChanged := true, SRI := { p.SRI with mode := true } }] ∧
      (serviceFunction doCalc c (some p)).trace.filter Event.isPort =
        [Event.pushSRI { p.SRI with mode := true },
          Event.pushPacket (serviceFunction doCalc c (some p)).state.data p.T p.EOS
            p.streamID] := by
  constructor
  · rw [serviceFunction_some_trace, dispatch_promote doCalc c _ p hmode himag]
    simp only [clearCall, announce]
    split <;> simp [Event.isRelease]
  · rw [serviceFunction_some_ports, dispatch_promote doCalc c _ p hmode himag]
    simp [announce]

/-- C3 (no false promotion): for a packet with `SRI.mode == false` and an operand with
`operand.imag() == 0`, the packet is released exactly as it arrived (so `SRI.mode` is still
false and `sriChanged` is unchanged), and a `pushSRI` is called if and only if the packet
arrived with `sriChanged == true`; when it is called it carries the unchanged SRI. -/
theorem serviceFunction_no_false_promotion {Op α τ σ : Type} [DecidableEq Op] [Zero α]
    [DecidableEq α] (doCalc : Calculator Op α) (c : Component Op α) (p : DataTransfer α τ σ)
    (hmode : p.SRI.mode = false) (himag : c.operand.imag = 0) :
    (serviceFunction doCalc c (some p)).trace.filter Event.isRelease = [Event.release p] ∧
      ((∃ sri, Event.pushSRI sri ∈ (serviceFunction doCalc c (some p)).trace) ↔
        p.sriChanged = true) ∧
      (∀ sri, Event.pushSRI sri ∈ (serviceFunction doCalc c (some p)).trace → sri = p.SRI) := by
  rw [serviceFunction_some_trace, dispatch_real doCalc c _ p hmode himag]
  simp only [clearCall, announce]
  refine ⟨?_, ?_, ?_⟩
  · split <;> split <;> simp [Event.isRelease]
  · split <;> split <;> simp_all
  · intro sri
    split <;> split <;> simp_all

/-- C8: for every dequeued packet, in all three domains, `serviceFunction` calls `pushPacket`
exactly once, with the content of `data` and with the time stamp, the end-of-stream flag and
the stream id the packet arrived with, and returns `NORMAL`. -/
theorem serviceFunction_forwards_frame {Op α τ σ : Type} [DecidableEq Op] [Zero α]
    [DecidableEq α] (doCalc : Calculator Op α) (c : Component Op α) (p : DataTransfer α τ σ) :
    (serviceFunction doCalc c (some p)).trace.filter Event.isPushPacket =
        [Event.pushPacket (serviceFunction doCalc c (some p)).state.data p.T p.EOS
          p.streamID] ∧
      (serviceFunction doCalc c (some p)).ret = ReturnCode.NORMAL :=
  ⟨serviceFunction_some_pushPackets doCalc c p, rfl⟩

/-- C9 (empty dequeue): when `getPacket` returns no packet, `serviceFunction` returns `NOOP`,
makes no call at all (no `data.clear()`, no `doCalculation`, no `pushSRI`, no `pushPacket`),
and leaves every member variable, `data` and `last_operation` included, as it was, also when
`operation` differs from `last_operation`. -/
theorem serviceFunction_empty_dequeue {Op α τ σ : Type} [DecidableEq Op] [Zero α]
    [DecidableEq α] (doCalc : Calculator Op α) (c : Component Op α) :
    (serviceFunction doCalc c (none : Option (DataTransfer α τ σ))).ret = ReturnCode.NOOP ∧
      (serviceFunction doCalc c (none : Option (DataTransfer α τ σ))).trace = [] ∧
      (serviceFunction doCalc c (none : Option (DataTransfer α τ σ))).state = c := by
  exact ⟨rfl, rfl, rfl⟩

/-! ### Packets with an odd number of scalars, and the element count of the output -/

/-- With the pairs as the view, the service function with the cast left open is
`serviceFunction`. -/
theorem serviceFunctionVia_asComplex {Op α τ σ : Type} [DecidableEq Op] [Zero α]
    [DecidableEq α] (doCalc : Calculator Op α) (c : Component Op α)
    (packet : Option (DataTransfer α τ σ)) :
    serviceFunctionVia asComplex doCalc c packet = serviceFunction doCalc c packet := by
  cases packet <;> rfl

/-- On a packet that is in real mode or holds an even number of scalars, the choice made for
odd buffers plays no part: the service function with the cast left open is
`serviceFunction`. -/
theorem serviceFunctionVia_castView_of_valid {Op α τ σ : Type} [DecidableEq Op] [Zero α]
    [DecidableEq α] (oddView : List α → List (Cplx α)) (doCalc : Calculator Op α)
    (c : Component Op α) (p : DataTransfer α τ σ)
    (hvalid : p.SRI.mode = true → p.dataBuffer.length % 2 = 0) :
    serviceFunctionVia (castView oddView) doCalc c (some p) =
      serviceFunction doCalc c (some p) := by
  have hd : dispatchVia (castView oddView) doCalc c (dataAfterClear c) p =
      dispatch doCalc c (dataAfterClear c) p := by
    unfold dispatchVia dispatch
    by_cases hmode : p.SRI.mode = true
    · simp [hmode, castView, hvalid hmode]
    · simp [hmode]
  simp only [serviceFunctionVia, serviceFunction, hd]

/-- C7 (as the code behaves): a packet with `SRI.mode == true` and an odd number of scalars
raises no error, and the size of the buffer is never inspected.  Whatever element list the cast
of line 170 yields for such a buffer (`oddView`, arbitrary), the iteration makes the
complex/complex `doCalculation` call on that list with the full operand and the `data` left by
lines 163-164, stores the result in `data`, calls `pushSRI` exactly when the packet arrived
with `sriChanged` set, calls `pushPacket` exactly once with that result and the packet's time
stamp, end-of-stream flag and stream id, releases the packet unchanged and returns
`NORMAL`. -/
theorem serviceFunction_odd_complex_packet {Op α τ σ : Type} [DecidableEq Op] [Zero α]
    [DecidableEq α] (oddView : List α → List (Cplx α)) (doCalc : Calculator Op α)
    (c : Component Op α) (p : DataTransfer α τ σ)
    (hmode : p.SRI.mode = true) (hodd : p.dataBuffer.length % 2 = 1) :
    (serviceFunctionVia (castView oddView) doCalc c (some p)).ret = ReturnCode.NORMAL ∧
      (serviceFunctionVia (castView oddView) doCalc c (some p)).trace.filter Event.isCalc =
        [Event.calcComplexComplex (oddView p.dataBuffer) c.operand (dataAfterClear c)] ∧
      (serviceFunctionVia (castView oddView) doCalc c (some p)).state =
        { c with
          data :=
            doCalc.complexComplex c.operation (oddView p.dataBuffer) c.operand
              (dataAfterClear c) } ∧
      (serviceFunctionVia (castView oddView) doCalc c (some p)).trace.filter Event.isPort =
        (if p.sriChanged = true then [Event.pushSRI p.SRI] else []) ++
          [Event.pushPacket
            (doCalc.complexComplex c.operation (oddView p.dataBuffer) c.operand
              (dataAfterClear c)) p.T p.EOS p.streamID] ∧
      (serviceFunctionVia (castView oddView) doCalc c (some p)).trace.filter
        Event.isRelease = [Event.release p] := by
  have hview : castView oddView p.dataBuffer = oddView p.dataBuffer := by
    simp [castView, hodd]
  have hd : dispatchVia (castView oddView) doCalc c (dataAfterClear c) p =
      (p, doCalc.complexComplex c.operation (oddView p.dataBuffer) c.operand
          (dataAfterClear c),
        Event.calcComplexComplex (oddView p.dataBuffer) c.operand (dataAfterClear c)) := by
    simp [dispatchVia, hmode, hview]
  simp only [serviceFunctionVia, hd, clearCall, announce]
  refine ⟨trivial, ?_, trivial, ?_, ?_⟩
  · split <;> split <;> simp [Event.isCalc]
  · split <;> split <;> simp [Event.isPort]
  · split <;> split <;> simp [Event.isRelease]

/-- C7 (witness): the theorem applied to a complex-mode packet holding the single scalar `5`,
with the operand `2 + 3i` under `"+"`, and a cast that reads a `0` behind the buffer: the
iteration pushes `[7, 3]`. -/
theorem serviceFunction_odd_complex_packet_witness :
    (exPacket [5] true false 7 false "s").SRI.mode = true ∧
      (exPacket [5] true false 7 false "s").dataBuffer.length % 2 = 1 ∧
      ((serviceFunctionVia (castView (fun buf => asComplex (buf ++ [0]))) exCalc
          (calc1to1_i "+" ⟨2, 3⟩) (some (exPacket [5] true false 7 false "s"))).ret =
          ReturnCode.NORMAL ∧
        (serviceFunctionVia (castView (fun buf => asComplex (buf ++ [0]))) exCalc
          (calc1to1_i "+" ⟨2, 3⟩) (some (exPacket [5] true false 7 false "s"))).trace.filter
            Event.isCalc = [Event.calcComplexComplex [⟨5, 0⟩] ⟨2, 3⟩ []] ∧
        (serviceFunctionVia (castView (fun buf => asComplex (buf ++ [0]))) exCalc
          (calc1to1_i "+" ⟨2, 3⟩) (some (exPacket [5] true false 7 false "s"))).state =
          { operation := "+", operand := ⟨2, 3⟩, last_operation := "+", data := [7, 3] } ∧
        (serviceFunctionVia (castView (fun buf => asComplex (buf ++ [0]))) exCalc
          (calc1to1_i "+" ⟨2, 3⟩) (some (exPacket [5] true false 7 false "s"))).trace.filter
            Event.isPort = [Event.pushPacket [7, 3] 7 false "s"] ∧
        (serviceFunctionVia (castView (fun buf => asComplex (buf ++ [0]))) exCalc
          (calc1to1_i "+" ⟨2, 3⟩) (some (exPacket [5] true false 7 false "s"))).trace.filter
            Event.isRelease = [Event.release (exPacket [5] true false 7 false "s")]) :=
  ⟨rfl, rfl,
    serviceFunction_odd_complex_packet (fun buf => asComplex (buf ++ [0])) exCalc
      (calc1to1_i "+" ⟨2, 3⟩) (exPacket [5] true false 7 false "s") rfl rfl⟩

/-- C7 (counterexample): a complex-mode packet of three scalars is not rejected; the iteration
returns `NORMAL` and its trace contains one `pushPacket`. -/
theorem odd_complex_packet_is_pushed :
    (serviceFunction exCalc (calc1to1_i "*" ⟨3, 4⟩)
        (some (exPacket [2, 0, 5] true false 7 false "s"))).ret = ReturnCode.NORMAL ∧
      ((serviceFunction exCalc (calc1to1_i "*" ⟨3, 4⟩)
        (some (exPacket [2, 0, 5] true false 7 false "s"))).trace.filter
          Event.isPushPacket).length = 1 := by
  decide

/-- C5 (length preservation): with a `doCalculation` that keeps the element count (§4.2) and a
valid packet (even scalar count in complex mode), the sequence handed to the single
`pushPacket` holds as many real scalars as the input in the real/real domain, as many complex
samples (two scalars each) as the input has pairs in the complex/complex domain, and as many
complex samples as the input has real scalars in the promoted domain. -/
theorem serviceFunction_preserves_count {Op α τ σ : Type} [DecidableEq Op] [Zero α]
    [DecidableEq α] (doCalc : Calculator Op α) (hcount : doCalc.PreservesCount)
    (c : Component Op α) (p : DataTransfer α τ σ)
    (hvalid : p.SRI.mode = true → p.dataBuffer.length % 2 = 0) :
    ∃ out, (serviceFunction doCalc c (some p)).trace.filter Event.isPushPacket =
        [Event.pushPacket out p.T p.EOS p.streamID] ∧
      (p.SRI.mode = true →
        out.length = 2 * (p.dataBuffer.length / 2) ∧ out.length = p.dataBuffer.length) ∧
      (p.SRI.mode = false → c.operand.imag ≠ 0 → out.length = 2 * p.dataBuffer.length) ∧
      (p.SRI.mode = false → c.operand.imag = 0 → out.length = p.dataBuffer.length) := by
  obtain ⟨hcc, hrc, hrr⟩ := hcount
  refine ⟨(serviceFunction doCalc c (some p)).state.data,
    serviceFunction_some_pushPackets doCalc c p, ?_, ?_, ?_⟩
  · intro hmode
    have hlen : (serviceFunction doCalc c (some p)).state.data.length =
        2 * (p.dataBuffer.length / 2) := by
      simp only [serviceFunction, dispatch_complex doCalc c _ p hmode, hcc, asComplex_length]
    have := hvalid hmode
    exact ⟨hlen, by omega⟩
  · intro hmode himag
    simp only [serviceFunction, dispatch_promote doCalc c _ p hmode himag, hrc]
  · intro hmode himag
    simp only [serviceFunction, dispatch_real doCalc c _ p hmode himag, hrr]

/-- C5 (witness): the theorem applied to the calculator of the specification and Scenario C,
a complex-mode packet holding `2 + 0i`. -/
theorem serviceFunction_preserves_count_witness :
    exCalc.PreservesCount ∧
      (exPacket [2, 0] true false 7 false "s").dataBuffer.length % 2 = 0 ∧
      ∃ out, (serviceFunction exCalc (calc1to1_i "*" ⟨3, 4⟩)
          (some (exPacket [2, 0] true false 7 false "s"))).trace.filter Event.isPushPacket =
          [Event.pushPacket out 7 false "s"] ∧
        ((exPacket [2, 0] true false 7 false "s").SRI.mode = true →
          out.length = 2 * ((exPacket [2, 0] true false 7 false "s").dataBuffer.length / 2) ∧
            out.length = (exPacket [2, 0] true false 7 false "s").dataBuffer.length) ∧
        ((exPacket [2, 0] true false 7 false "s").SRI.mode = false →
          (calc1to1_i "*" (⟨3, 4⟩ : Cplx Int)).operand.imag ≠ 0 →
          out.length = 2 * (exPacket [2, 0] true false 7 false "s").dataBuffer.length) ∧
        ((exPacket [2, 0] true false 7 false "s").SRI.mode = false →
          (calc1to1_i "*" (⟨3, 4⟩ : Cplx Int)).operand.imag = 0 →
          out.length = (exPacket [2, 0] true false 7 false "s").dataBuffer.length) :=
  ⟨specCalculator_preservesCount exRealOp exCplxOp, rfl,
    serviceFunction_preserves_count exCalc (specCalculator_preservesCount exRealOp exCplxOp)
      (calc1to1_i "*" ⟨3, 4⟩) (exPacket [2, 0] true false 7 false "s") (fun _ => rfl)⟩

/-- C2 (witness): the theorem applied to Scenario B, a real packet `[1, 2]` meeting the
operand `0 + 1i`. -/
theorem serviceFunction_promotes_witness :
    (exPacket [1, 2] false false 7 false "s").SRI.mode = false ∧
      (calc1to1_i "+" (⟨0, 1⟩ : Cplx Int)).operand.imag ≠ 0 ∧
      ((serviceFunction exCalc (calc1to1_i "+" ⟨0, 1⟩)
          (some (exPacket [1, 2] false false 7 false "s"))).trace.filter Event.isRelease =
          [Event.release (exPacket [1, 2] true true 7 false "s")] ∧
        (serviceFunction exCalc (calc1to1_i "+" ⟨0, 1⟩)
          (some (exPacket [1, 2] false false 7 false "s"))).trace.filter Event.isPort =
          [Event.pushSRI { mode := true, rest := () },
            Event.pushPacket [1, 1, 2, 1] 7 false "s"]) :=
  ⟨rfl, by decide,
    serviceFunction_promotes exCalc (calc1to1_i "+" ⟨0, 1⟩)
      (exPacket [1, 2] false false 7 false "s") rfl (by decide)⟩

/-- C3 (witness): the theorem applied to Scenario A, a real packet `[1, 2, 3]` meeting the
operand `2 + 0i`. -/
theorem serviceFunction_no_false_promotion_witness :
    (exPacket [1, 2, 3] false false 7 false "s").SRI.mode = false ∧
      (calc1to1_i "*" (⟨2, 0⟩ : Cplx Int)).operand.imag = 0 ∧
      ((serviceFunction exCalc (calc1to1_i "*" ⟨2, 0⟩)
          (some (exPacket [1, 2, 3] false false 7 false "s"))).trace.filter Event.isRelease =
          [Event.release (exPacket [1, 2, 3] false false 7 false "s")] ∧
        ((∃ sri, Event.pushSRI sri ∈ (serviceFunction exCalc (calc1to1_i "*" ⟨2, 0⟩)
          (some (exPacket [1, 2, 3] false false 7 false "s"))).trace) ↔
          (exPacket [1, 2, 3] false false 7 false "s").sriChanged = true) ∧
        (∀ sri, Event.pushSRI sri ∈ (serviceFunction exCalc (calc1to1_i "*" ⟨2, 0⟩)
          (some (exPacket [1, 2, 3] false false 7 false "s"))).trace →
          sri = (exPacket [1, 2, 3] false false 7 false "s").SRI)) :=
  ⟨rfl, rfl,
    serviceFunction_no_false_promotion exCalc (calc1to1_i "*" ⟨2, 0⟩)
      (exPacket [1, 2, 3] false false 7 false "s") rfl rfl⟩

/-! ### Runs of iterations: the accumulator reset and the first announcement -/

theorem serviceFunction_last_operation {Op α τ σ : Type} [DecidableEq Op] [Zero α]
    [DecidableEq α] (doCalc : Calculator Op α) (c : Component Op α)
    (packet : Option (DataTransfer α τ σ)) :
    (serviceFunction doCalc c packet).state.last_operation = c.last_operation := by
  cases packet <;> rfl

theorem run_last_operation {Op α τ σ : Type} [DecidableEq Op] [Zero α] [DecidableEq α]
    (doCalc : Calculator Op α) (ticks : List (Tick Op α τ σ)) (c : Component Op α) :
    (run doCalc c ticks).1.last_operation = c.last_operation := by
  induction ticks generalizing c with
  | nil => rfl
  | cons t ts ih =>
    simp only [run, ih, iteration, serviceFunction_last_operation]
    rfl

theorem dispatch_ne_clearData {Op α τ σ : Type} [Zero α] [DecidableEq α]
    (doCalc : Calculator Op α) (c : Component Op α) (data : List α) (tmp : DataTransfer α τ σ) :
    Event.clearData ≠ (dispatch doCalc c data tmp).2.2 := by
  intro h
  have hcalc := dispatch_isCalc doCalc c data tmp
  rw [← h] at hcalc
  exact Bool.noConfusion hcalc

/-- The call `data.clear()` is in the trace exactly when `last_operation != operation`. -/
theorem clearData_mem_iff {Op α τ σ : Type} [DecidableEq Op] [Zero α] [DecidableEq α]
    (doCalc : Calculator Op α) (c : Component Op α) (p : DataTransfer α τ σ) :
    Event.clearData ∈ (serviceFunction doCalc c (some p)).trace ↔
      c.last_operation ≠ c.operation := by
  rw [serviceFunction_some_trace]
  have hd := dispatch_ne_clearData doCalc c (dataAfterClear c) p
  simp only [clearCall, announce]
  split <;> split <;> simp_all

/-- C10: `serviceFunction` never writes `last_operation`: after any run of iterations from the
constructed component it still holds the operation captured by the constructor.  So in the
next iteration that dequeues a packet, `data.clear()` is called if and only if the operation
configured at that iteration differs from the construction-time operation, whatever was
configured before; and `doCalculation` receives the empty `data` in that case and the `data`
left by the run otherwise. -/
theorem last_operation_never_written {Op α τ σ : Type} [DecidableEq Op] [Zero α]
    [DecidableEq α] (doCalc : Calculator Op α) (op0 : Op) (operand0 : Cplx α)
    (ticks : List (Tick Op α τ σ)) (op : Op) (operand : Cplx α) (p : DataTransfer α τ σ) :
    (run doCalc (calc1to1_i op0 operand0) ticks).1.last_operation = op0 ∧
      (Event.clearData ∈ (iteration doCalc (run doCalc (calc1to1_i op0 operand0) ticks).1
          { operation := op, operand := operand, packet := some p }).trace ↔ op ≠ op0) ∧
      dataAfterClear (configure (run doCalc (calc1to1_i op0 operand0) ticks).1
          ({ operation := op, operand := operand, packet := some p } : Tick Op α τ σ)) =
        (if op ≠ op0 then [] else (run doCalc (calc1to1_i op0 operand0) ticks).1.data) := by
  have hlast : (run doCalc (calc1to1_i op0 operand0) ticks).1.last_operation = op0 :=
    run_last_operation doCalc ticks (calc1to1_i op0 operand0)
  refine ⟨hlast, ?_, ?_⟩
  · simp only [iteration, clearData_mem_iff, configure, hlast]
    exact ne_comm
  · simp only [dataAfterClear, configure, hlast]
    by_cases hop : op0 = op
    · subst hop
      simp
    · have hop2 : ¬ op = op0 := fun h => hop h.symm
      simp [hop, hop2]

/-- C4 (evaluation at the failing input): constructed with operation `"+"`, the component
processes `[1, 2]` under `"*"` and then `[5]` under `"+"`.  The operation changes between
the two packets, yet `data.clear()` is called only in the first iteration, and the second
`doCalculation` receives `data = [2, 4]`, the output of the first packet. -/
theorem stale_data_after_operation_change :
    (run exCalc (calc1to1_i "+" ⟨1, 0⟩)
        [{ operation := "*", operand := ⟨2, 0⟩,
            packet := some (exPacket [1, 2] false true 7 false "s") },
          { operation := "+", operand := ⟨2, 0⟩,
            packet := some (exPacket [5] false false 8 false "s") }]).2.filter
        (fun e => e.isCalc || decide (e = Event.clearData)) =
      [Event.clearData, Event.calcRealReal [1, 2] 2 [], Event.calcRealReal [5] 2 [2, 4]] := by
  decide

theorem dispatch_sriChanged {Op α τ σ : Type} [Zero α] [DecidableEq α]
    (doCalc : Calculator Op α) (c : Component Op α) (data : List α) (p : DataTransfer α τ σ) :
    (dispatch doCalc c data p).1.sriChanged =
      (p.sriChanged || (!p.SRI.mode && decide (c.operand.imag ≠ 0))) := by
  by_cases hmode : p.SRI.mode = true
  · rw [dispatch_complex doCalc c _ p hmode]
    simp [hmode]
  · have hfalse : p.SRI.mode = false := by simpa using hmode
    by_cases himag : c.operand.imag = 0
    · rw [dispatch_real doCalc c _ p hfalse himag]
      simp [hfalse, himag]
    · rw [dispatch_promote doCalc c _ p hfalse himag]
      simp [hfalse, himag]

/-- A `pushPacket` in the trace of an iteration carries the stream id of the dequeued packet. -/
theorem pushPacket_mem_streamID {Op α τ σ : Type} [DecidableEq Op] [Zero α] [DecidableEq α]
    (doCalc : Calculator Op α) (c : Component Op α) (p : DataTransfer α τ σ) (d : List α)
    (T : τ) (e : Bool) (s : String)
    (hmem : Event.pushPacket d T e s ∈ (serviceFunction doCalc c (some p)).trace) :
    s = p.streamID := by
  have hfil : Event.pushPacket d T e s ∈
      (serviceFunction doCalc c (some p)).trace.filter Event.isPushPacket :=
    List.mem_filter.mpr ⟨hmem, rfl⟩
  rw [serviceFunction_some_pushPackets doCalc c p] at hfil
  simp only [List.mem_singleton, Event.pushPacket.injEq] at hfil
  exact hfil.2.2.2

/-- A `pushSRI` ahead of which no `pushPacket` for `s` occurs settles the stream `s`. -/
theorem announcedBeforePush_of_pushSRI {α τ σ : Type} (s : String)
    (front back : List (Event α τ σ)) (sri : StreamSRI σ)
    (hfront : ∀ d T e, Event.pushPacket d T e s ∉ front) :
    AnnouncedBeforePush s (front ++ Event.pushSRI sri :: back) := by
  intro pre d T e post heq
  rcases List.append_eq_append_iff.mp heq with ⟨mid, hpre, hrest⟩ | ⟨mid, hfr, hrest⟩
  · cases mid with
    | nil => simp at hrest
    | cons x mid =>
      simp only [List.cons_append, List.cons.injEq] at hrest
      exact ⟨sri, by rw [hpre, ← hrest.1]; simp⟩
  · cases mid with
    | nil => simp at hrest
    | cons x mid =>
      simp only [List.cons_append, List.cons.injEq] at hrest
      exact absurd (by rw [hfr, hrest.1]; simp) (hfront d T e)

/-- Calls that push nothing for `s` can be put in front of a trace that is settled for `s`. -/
theorem announcedBeforePush_append {α τ σ : Type} (s : String)
    (front rest : List (Event α τ σ)) (hfront : ∀ d T e, Event.pushPacket d T e s ∉ front)
    (hrest : AnnouncedBeforePush s rest) : AnnouncedBeforePush s (front ++ rest) := by
  intro pre d T e post heq
  rcases List.append_eq_append_iff.mp heq with ⟨mid, hpre, hsplit⟩ | ⟨mid, hfr, hsplit⟩
  · obtain ⟨sri, hsri⟩ := hrest mid d T e post hsplit
    exact ⟨sri, by rw [hpre]; exact List.mem_append_right _ hsri⟩
  · cases mid with
    | nil =>
      obtain ⟨sri, hsri⟩ := hrest [] d T e post (by simpa using hsplit.symm)
      simp at hsri
    | cons x mid =>
      simp only [List.cons_append, List.cons.injEq] at hsplit
      exact absurd (by rw [hfr, hsplit.1]; simp) (hfront d T e)

/-- C6 (as the code behaves): for every run and every stream id `s`, if the first dequeued
packet carrying `s` arrives with `sriChanged == true`, or arrives in real mode while
`operand.imag() != 0`, then a `pushSRI` occurs in the trace before the first `pushPacket`
carrying `s`. -/
theorem run_announced_before_push {Op α τ σ : Type} [DecidableEq Op] [Zero α] [DecidableEq α]
    (doCalc : Calculator Op α) (s : String) (ticks : List (Tick Op α τ σ))
    (c : Component Op α)
    (hfirst : ∀ t, ticks.find? (Tick.carries s) = some t → t.flagged = true) :
    AnnouncedBeforePush s (run doCalc c ticks).2 := by
  induction ticks generalizing c with
  | nil =>
    intro pre d T e post heq
    simp [run] at heq
  | cons t ts ih =>
    obtain ⟨op, operand, packet⟩ := t
    simp only [run]
    cases packet with
    | none =>
      have hts : ∀ t, ts.find? (Tick.carries s) = some t → t.flagged = true := by
        intro t ht
        exact hfirst t (by simpa [List.find?_cons, Tick.carries] using ht)
      simpa [iteration, serviceFunction] using ih _ hts
    | some p =>
      by_cases hsid : p.streamID = s
      · have hflag := hfirst ⟨op, operand, some p⟩ (by simp [List.find?_cons, Tick.carries, hsid])
        have hchg : (dispatch doCalc (configure c ⟨op, operand, some p⟩)
            (dataAfterClear (configure c ⟨op, operand, some p⟩)) p).1.sriChanged = true := by
          rw [dispatch_sriChanged]
          simpa [Tick.flagged, configure] using hflag
        simp only [iteration, serviceFunction_some_trace, announce, hchg, if_true,
          List.append_assoc, List.singleton_append, List.cons_append, List.nil_append]
        rw [List.append_cons]
        apply announcedBeforePush_of_pushSRI
        intro d T e hmem
        rcases List.mem_append.mp hmem with hmem | hmem
        · unfold clearCall at hmem
          split at hmem <;> simp at hmem
        · have hcalc := dispatch_isCalc doCalc (configure c ⟨op, operand, some p⟩)
            (dataAfterClear (configure c ⟨op, operand, some p⟩)) p
          rw [List.mem_singleton] at hmem
          rw [← hmem] at hcalc
          exact Bool.noConfusion hcalc
      · have hts : ∀ t, ts.find? (Tick.carries s) = some t → t.flagged = true := by
          intro t ht
          exact hfirst t (by simpa [List.find?_cons, Tick.carries, hsid] using ht)
        apply announcedBeforePush_append
        · intro d T e hmem
          exact hsid (pushPacket_mem_streamID doCalc _ p d T e s hmem).symm
        · exact ih _ hts

/-- C6 (witness): the theorem applied to a run whose only packet arrives with `sriChanged`
set. -/
theorem run_announced_before_push_witness :
    (∀ t,
        ([{ operation := "*", operand := ⟨2, 0⟩,
            packet := some (exPacket [1, 2, 3] false true 7 false "s") }] :
          List (Tick String Int Nat Unit)).find? (Tick.carries "s") = some t →
        t.flagged = true) ∧
      AnnouncedBeforePush "s" (run exCalc (calc1to1_i "*" ⟨2, 0⟩)
        [{ operation := "*", operand := ⟨2, 0⟩,
            packet := some (exPacket [1, 2, 3] false true 7 false "s") }]).2 :=
  ⟨by intro t ht; cases ht; rfl,
    run_announced_before_push exCalc "s" _ (calc1to1_i "*" ⟨2, 0⟩)
      (by intro t ht; cases ht; rfl)⟩

/-- C6 (counterexample): Scenario A as the first packet of stream `"s"`, arriving with
`sriChanged == false`: the run pushes the packet and no `pushSRI` precedes it. -/
theorem push_without_announcement :
    ¬ AnnouncedBeforePush "s" (run exCalc (calc1to1_i "*" ⟨2, 0⟩)
        [{ operation := "*", operand := ⟨2, 0⟩,
            packet := some (exPacket [1, 2, 3] false false 7 false "s") }]).2 := by
  intro h
  obtain ⟨sri, hsri⟩ := h [Event.calcRealReal [1, 2, 3] 2 []] [2, 4, 6] 7 false
    [Event.release (exPacket [1, 2, 3] false false 7 false "s")] (by decide)
  simp at hsri

end Calc1to1
